import Mathlib

/-!
The event RSVP service of `src/dsbj.go`

A shallow embedding of the four request handlers of `dsbj.go`
(`newEvent`, `getEvent`, `newAttendee`, `eventRouter`) as state-passing
functions.  The state threaded through a handler holds the document store,
the `http.ResponseWriter` of the request and the list of datastore calls
made so far.

The collaborators that live outside the repository are modelled as follows.

* `net/http`: a `ResponseWriter` keeps its header map, the status and header
  snapshot fixed by the first `WriteHeader`, and the body written so far.
  A later `WriteHeader` is ignored, as in `net/http`.  `http.Redirect`
  cleans the path of the url with `path.Clean` when `url.Parse` accepts the
  url, and percent-escapes the bytes of non-ASCII characters.
* `appengine/datastore`: a store maps keys to entities and allocates integer
  ids for incomplete keys; `Put` refuses an entity with more than 20000
  indexed properties.  `DecodeKey` and `Key.Encode` are parameters.
* `html/template`: executing the event template writes one body chunk that
  carries the view model; whether it fails is a parameter.
-/

namespace Dsbj

/-! ## Data model -/

/-- The `Event` struct of `dsbj.go` (lines 22-31). -/
structure Event where
  Id : String
  Title : String
  Description : String
  Location : String
  Start : String
  End : String
  POC : String
  Attendees : List String
deriving DecidableEq

/-- The value `new(Event)` points to: every field zero. -/
def Event.zero : Event :=
  { Id := "", Title := "", Description := "", Location := "", Start := "",
    End := "", POC := "", Attendees := [] }

/-- Parsed form data, `url.Values`: each key with its values in order. -/
abbrev Values := List (String × List String)

/-- The method `url.Values.Get`: the first value of `key`, or the empty string. -/
def Values.Get (form : Values) (key : String) : String :=
  match form.lookup key with
  | some (v :: _) => v
  | _ => ""

/-- The function `NewEvent` (lines 33-45): builds an event from the form; never fails. -/
def NewEvent (form : Values) : Option String × Event :=
  (none,
   { Id := form.Get "id", Title := form.Get "title",
     Description := form.Get "description", Location := form.Get "location",
     Start := form.Get "start", End := form.Get "end", POC := form.Get "poc",
     Attendees := [] })

/-! ## Document store -/

/-- A `datastore.Key` without parent: kind, string id and integer id. -/
structure Key where
  kind : String
  stringID : String
  intID : Nat
deriving DecidableEq

/-- The constructor `datastore.NewKey(ctx, kind, stringID, intID, nil)`. -/
def NewKey (kind stringID : String) (intID : Nat) : Key :=
  { kind := kind, stringID := stringID, intID := intID }

/-- The method `Key.Incomplete`: neither a string id nor an integer id. -/
def Key.Incomplete (k : Key) : Bool :=
  k.stringID == "" && k.intID == 0

/-- Validity of a key as `datastore` checks it: a kind, and not both ids. -/
def Key.valid (k : Key) : Bool :=
  k.kind != "" && !(k.stringID != "" && k.intID != 0)

/-- Errors a datastore call can return. -/
inductive DSError where
  | ErrNoSuchEntity
  | ErrInvalidEntityType
  | ErrInvalidKey
  | other
deriving DecidableEq

/-- Modelled from the spec: the document store, "key/value entity storage keyed
by a generated or caller-supplied string id, supporting get(key),
put(key, entity), and a distinguishable not-found result".  `ents` is the
content, `lastID` the last integer id the store generated. -/
structure Store where
  ents : Key → Option Event
  lastID : Nat

/-- The call `datastore.Get(ctx, key, dst)` with `dst` a pointer to an `Event`. -/
def Store.Get (s : Store) (key : Key) : Except DSError Event :=
  if !key.valid then .error .ErrInvalidKey
  else if key.Incomplete then .error .other
  else match s.ents key with
    | some e => .ok e
    | none => .error .ErrNoSuchEntity

/-- The call `datastore.Get(ctx, key, &event)` of `newEvent` (line 77), where
`event` is already a `*Event`: the destination is a pointer to a pointer, so
an entity that exists cannot be loaded and the call fails with
`ErrInvalidEntityType`; a missing entity is still `ErrNoSuchEntity`. -/
def Store.GetPtrPtr (s : Store) (key : Key) : Except DSError Unit :=
  match s.Get key with
  | .ok _ => .error .ErrInvalidEntityType
  | .error e => .error e

/-- The constant `maxIndexedProperties` of `datastore`. -/
def maxIndexedProperties : Nat := 20000

/-- Number of indexed properties an `Event` is saved with: one for each of the
seven string fields and one for each attendee. -/
def Event.indexedProperties (e : Event) : Nat :=
  7 + e.Attendees.length

/-- The call `datastore.Put(ctx, key, src)`: the key must be valid and the entity
must have at most `maxIndexedProperties` indexed properties ("datastore:
too many indexed properties" otherwise); an incomplete key is completed
with a generated integer id; the entity replaces whatever the key held. -/
def Store.Put (s : Store) (key : Key) (e : Event) : Except DSError (Key × Store) :=
  if !key.valid then .error .ErrInvalidKey
  else if maxIndexedProperties < e.indexedProperties then .error .other
  else
    let k : Key := if key.Incomplete then { key with intID := s.lastID + 1 } else key
    let n : Nat := if key.Incomplete then s.lastID + 1 else s.lastID
    .ok (k, { ents := fun q => if q = k then some e else s.ents q, lastID := n })

/-- A datastore call, as recorded in the log of a request. -/
inductive DSOp where
  | get (key : Key)
  | put (key : Key) (e : Event)
deriving DecidableEq

/-- Whether a logged call is a write. -/
def DSOp.isPut : DSOp → Bool
  | .put _ _ => true
  | .get _ => false

/-! ## Strings -/

/-- Drop the leading characters that belong to the cutset. -/
def trimLeft (cutset : List Char) (cs : List Char) : List Char :=
  cs.dropWhile (fun c => cutset.elem c)

/-- Drop the trailing characters that belong to the cutset. -/
def trimRight (cutset : List Char) (cs : List Char) : List Char :=
  (trimLeft cutset cs.reverse).reverse

/-- The function `strings.Trim(s, cutset)`. -/
def Trim (s cutset : String) : String :=
  String.mk (trimRight cutset.data (trimLeft cutset.data s.data))

/-- Split a character list at every occurrence of the separator. -/
def splitChars (sep : Char) : List Char → List (List Char)
  | [] => [[]]
  | c :: cs =>
    if c = sep then [] :: splitChars sep cs
    else match splitChars sep cs with
      | [] => [[c]]
      | f :: fs => (c :: f) :: fs

/-- The function `strings.Split(s, sep)` for a separator of one character: the empty
string splits into one empty fragment. -/
def Split (s : String) (sep : Char) : List String :=
  (splitChars sep s.data).map String.mk

/-- Join path elements with slashes. -/
def joinSlash : List (List Char) → List Char
  | [] => []
  | [a] => a
  | a :: b :: rest => a ++ '/' :: joinSlash (b :: rest)

/-- One step of `path.Clean` on the stack of elements kept so far, top first:
an empty element and `.` are dropped; `..` removes the element before it,
is dropped at the root of a rooted path, and is kept at the start of a
path that is not rooted; any other element is kept. -/
def cleanStep (rooted : Bool) (out : List (List Char)) (elem : List Char) :
    List (List Char) :=
  if elem = [] ∨ elem = ['.'] then out
  else if elem = ['.', '.'] then
    match out with
    | top :: rest => if top = ['.', '.'] then elem :: out else rest
    | [] => if rooted then [] else [elem]
  else elem :: out

/-- The function `path.Clean` on characters. -/
def cleanChars (p : List Char) : List Char :=
  match p with
  | [] => ['.']
  | c :: _ =>
    let rooted := c == '/'
    let out := ((splitChars '/' p).foldl (cleanStep rooted) []).reverse
    if rooted then '/' :: joinSlash out
    else if out = [] then ['.'] else joinSlash out

/-- The function `path.Clean`. -/
def Clean (p : String) : String :=
  String.mk (cleanChars p.data)

/-- A control character, as `stringContainsCTLByte` of `net/url` tests bytes. -/
def isCTL (c : Char) : Bool :=
  c.toNat < 32 || c.toNat == 127

/-- The function `ishex` of `net/url`. -/
def ishex (c : Char) : Bool :=
  (48 ≤ c.toNat && c.toNat ≤ 57) || (97 ≤ c.toNat && c.toNat ≤ 102) ||
    (65 ≤ c.toNat && c.toNat ≤ 70)

/-- The check `unescape` of `net/url` makes on a path or a fragment: every percent
sign is followed by two hexadecimal digits. -/
def validEscapes : List Char → Bool
  | [] => true
  | c :: rest =>
    if c = '%' then
      match rest with
      | a :: b :: rest2 => ishex a && ishex b && validEscapes rest2
      | _ => false
    else validEscapes rest

/-- Whether `url.Parse` accepts a url that begins with one slash (every url
the handlers redirect to does): the part before `#` has no control
character, and the path before `?` and the fragment after `#` have valid
percent escapes.  Such a url has no scheme and no host. -/
def parseRootedOk (url : List Char) : Bool :=
  let u := url.takeWhile (fun c => c != '#')
  let frag := (url.dropWhile (fun c => c != '#')).drop 1
  let rest := u.takeWhile (fun c => c != '?')
  !(u.any isCTL) && validEscapes rest && validEscapes frag

/-- The url `http.Redirect` goes on with, for a url that begins with one slash:
when `url.Parse` accepts it, the part before the first `?` is cleaned with
`path.Clean`, keeping a trailing slash, and the query is put back;
otherwise the url is left as it is. -/
def redirectURL (url : String) : String :=
  if parseRootedOk url.data then
    let p := url.data.takeWhile (fun c => c != '?')
    let query := url.data.dropWhile (fun c => c != '?')
    let trailing := p.getLast? == some '/'
    let cleaned := cleanChars p
    let cleaned := if trailing && !(cleaned.getLast? == some '/')
      then cleaned ++ ['/'] else cleaned
    String.mk (cleaned ++ query)
  else url

/-- The bytes of the UTF-8 encoding of a character. -/
def utf8Bytes (c : Char) : List Nat :=
  let v := c.toNat
  if v < 128 then [v]
  else if v < 2048 then [192 + v / 64, 128 + v % 64]
  else if v < 65536 then [224 + v / 4096, 128 + (v / 64) % 64, 128 + v % 64]
  else [240 + v / 262144, 128 + (v / 4096) % 64, 128 + (v / 64) % 64, 128 + v % 64]

/-- A hexadecimal digit, in lower case as `strconv.AppendInt` writes it. -/
def hexDigit (n : Nat) : Char :=
  ['0', '1', '2', '3', '4', '5', '6', '7', '8', '9', 'a', 'b', 'c', 'd', 'e', 'f'].getD n '0'

/-- The function `hexEscapeNonASCII` of `net/http`: every byte of a non-ASCII character
becomes a percent sign and two hexadecimal digits. -/
def hexEscapeNonASCII (s : String) : String :=
  String.mk (s.data.flatMap fun c =>
    if c.toNat < 128 then [c]
    else (utf8Bytes c).flatMap fun b => ['%', hexDigit (b / 16), hexDigit (b % 16)])

/-- A character of the URL-safe base64 alphabet. -/
def isBase64URL (c : Char) : Bool :=
  (65 ≤ c.toNat && c.toNat ≤ 90) || (97 ≤ c.toNat && c.toNat ≤ 122) ||
    (48 ≤ c.toNat && c.toNat ≤ 57) || c == '-' || c == '_'

/-! ## Response writer -/

/-- A piece of response body. -/
inductive Chunk where
  | text (s : String)
  | anchor (url : String) (code : Nat)
  | template (name : String) (data : Event)
deriving DecidableEq

/-- An `http.ResponseWriter`: the header map, the status and headers sent by
the first `WriteHeader` (none while no header was written), and the body. -/
structure ResponseWriter where
  header : List (String × String)
  status : Option Nat
  sent : List (String × String)
  body : List Chunk
deriving DecidableEq

/-- The writer a handler receives: nothing set, nothing written. -/
def ResponseWriter.fresh : ResponseWriter :=
  { header := [], status := none, sent := [], body := [] }

/-- The method `Header().Set(k, v)`. -/
def ResponseWriter.Set (w : ResponseWriter) (k v : String) : ResponseWriter :=
  { w with header := (k, v) :: w.header.filter (fun p => p.1 != k) }

/-- The method `WriteHeader(code)`: the first call fixes status and headers, later calls
are superfluous and ignored. -/
def ResponseWriter.WriteHeader (w : ResponseWriter) (code : Nat) : ResponseWriter :=
  match w.status with
  | some _ => w
  | none => { w with status := some code, sent := w.header }

/-- The method `Write`: writes the header with status 200 when none was written yet. -/
def ResponseWriter.Write (w : ResponseWriter) (c : Chunk) : ResponseWriter :=
  let w1 := w.WriteHeader 200
  { w1 with body := w1.body ++ [c] }

/-- The function `http.Error(w, msg, code)`. -/
def ResponseWriter.Error (w : ResponseWriter) (msg : String) (code : Nat) : ResponseWriter :=
  let w1 := w.Set "Content-Type" "text/plain; charset=utf-8"
  let w2 := w1.Set "X-Content-Type-Options" "nosniff"
  let w3 := w2.WriteHeader code
  w3.Write (.text (msg ++ "\n"))

/-- The function `http.Redirect(w, r, url, code)` for a request of method `method` and
a url that begins with one slash, as every url the handlers pass does (the
branch of `net/http` that makes a relative url absolute is not needed).
The `Location` header holds the cleaned url with non-ASCII bytes escaped. -/
def ResponseWriter.Redirect (w : ResponseWriter) (method url : String) (code : Nat) :
    ResponseWriter :=
  let url := redirectURL url
  let hadCT := (w.header.lookup "Content-Type").isSome
  let w1 := w.Set "Location" (hexEscapeNonASCII url)
  let w2 := if !hadCT && (method == "GET" || method == "HEAD")
    then w1.Set "Content-Type" "text/html; charset=utf-8" else w1
  let w3 := w2.WriteHeader code
  if !hadCT && method == "GET" then w3.Write (.anchor url code) else w3

/-- The `Location` header the response was sent with. -/
def ResponseWriter.Location (w : ResponseWriter) : Option String :=
  w.sent.lookup "Location"

/-! ## Requests and handler state -/

/-- The parts of an `http.Request` the handlers read: the method, `URL.Path`
and what `ParseForm` yields (an error, or the parsed form). -/
structure Request where
  Method : String
  Path : String
  Form : Except String Values

/-- Collaborators supplied from outside the repository: `datastore.DecodeKey`,
`Key.Encode`, and whether executing `templates/event.html` on a view model
fails.  `Key.Encode` returns URL-safe base64 without padding, so its result
is made of the characters of that alphabet. -/
structure Env where
  DecodeKey : String → Option Key
  Encode : Key → String
  templateFails : Event → Bool
  Encode_base64 : ∀ (k : Key) (c : Char), c ∈ (Encode k).data → isBase64URL c = true

/-- What a handler reads and changes: the store, the response writer, the log
of datastore calls and the log of template executions, oldest first. -/
structure State where
  store : Store
  w : ResponseWriter
  ops : List DSOp
  executed : List (String × Event)

/-- The state at the start of a request on store `s`. -/
def State.init (s : Store) : State :=
  { store := s, w := ResponseWriter.fresh, ops := [], executed := [] }

/-- Handler-level `http.Error`. -/
def State.Error (st : State) (msg : String) (code : Nat) : State :=
  { st with w := st.w.Error msg code }

/-- Handler-level `http.Redirect`. -/
def State.Redirect (st : State) (method url : String) (code : Nat) : State :=
  { st with w := st.w.Redirect method url code }

/-- Handler-level `datastore.Get` into an `Event`, logged. -/
def State.Get (st : State) (key : Key) : Except DSError Event × State :=
  (st.store.Get key, { st with ops := st.ops ++ [.get key] })

/-- Handler-level `datastore.Get` into a pointer to a pointer, logged. -/
def State.GetPtrPtr (st : State) (key : Key) : Except DSError Unit × State :=
  (st.store.GetPtrPtr key, { st with ops := st.ops ++ [.get key] })

/-- Handler-level `datastore.Put`, logged; the store changes when the call succeeds. -/
def State.Put (st : State) (key : Key) (e : Event) : Except DSError Key × State :=
  match st.store.Put key e with
  | .ok (k, s1) => (.ok k, { st with store := s1, ops := st.ops ++ [.put key e] })
  | .error err => (.error err, { st with ops := st.ops ++ [.put key e] })

/-- The call `et.ExecuteTemplate(w, "event.html", event)`, logged: on success the
rendering of `event` is written to the response; the result tells whether
it failed. -/
def State.ExecuteTemplate (env : Env) (st : State) (name : String) (event : Event) :
    Bool × State :=
  let st1 := { st with executed := st.executed ++ [(name, event)] }
  if env.templateFails event then (true, st1)
  else (false, { st1 with w := st1.w.Write (.template name event) })

/-- Number of datastore writes a request made. -/
def State.writes (st : State) : Nat :=
  (st.ops.filter DSOp.isPut).length

/-! ## Handlers -/

/-- Lines 86-101 of `newEvent`: store the event and redirect to it. -/
def newEvent.put (env : Env) (r : Request) (event : Event) (st : State) : State :=
  let key := NewKey "Event" event.Id 0
  match st.Put key event with
  | (.error _, st1) => st1.Error "Internal Server Error" 500
  | (.ok key, st1) =>
    let keyString := if event.Id = "" then env.Encode key else event.Id
    st1.Redirect r.Method ("/events/" ++ keyString) 303

/-- Lines 73-84 of `newEvent`: with an id, go on only when the probe says
`ErrNoSuchEntity`; then the rest of the handler. -/
def newEvent.checkTaken (env : Env) (r : Request) (event : Event) (st : State) : State :=
  if event.Id ≠ "" then
    let key := NewKey "Event" event.Id 0
    match st.GetPtrPtr key with
    | (.error .ErrNoSuchEntity, st1) => newEvent.put env r event st1
    | (_, st1) => st1.Error "Conflict" 409
  else newEvent.put env r event st

/-- The handler `newEvent` (lines 47-102).  The branch for the reserved id writes
`Conflict` and, having no `return`, goes on to the rest of the handler. -/
def newEvent (env : Env) (r : Request) (st : State) : State :=
  match r.Form with
  | .error _ => st.Error "Internal Server Error" 500
  | .ok form =>
    match NewEvent form with
    | (some _, _) => st.Error "Internal Server Error" 500
    | (none, event) =>
      if event.Id = "events" then
        newEvent.checkTaken env r event (st.Error "Conflict" 409)
      else if event.Title = "" ∨ event.Description = "" ∨ event.Location = "" ∨
          event.Start = "" ∨ event.End = "" ∨ event.POC = "" then
        st.Error "Bad Request" 400
      else newEvent.checkTaken env r event st

/-- The key a path identifier resolves to (lines 109-112 and 145-148): the
decoded key, or a key with the identifier as string id when decoding fails. -/
def resolveKey (env : Env) (eventId : String) : Key :=
  match env.DecodeKey eventId with
  | some key => key
  | none => NewKey "Event" eventId 0

/-- The handler `getEvent` (lines 105-129).  After `Not Found` there is no `return`:
the handler goes on with the zero event. -/
def getEvent (env : Env) (_r : Request) (eventId : String) (st : State) : State :=
  let key := resolveKey env eventId
  let (res, st1) := st.Get key
  let event : Event := match res with
    | .ok e => e
    | .error _ => Event.zero
  let st2 := match res with
    | .error .ErrNoSuchEntity => st1.Error "Not Found" 404
    | _ => st1
  let event := if event.Id = "" then { event with Id := eventId } else event
  match State.ExecuteTemplate env st2 "event.html" event with
  | (true, st3) => st3.Error "Internal Server Error" 500
  | (false, st3) => st3

/-- Lines 162-178 of `newAttendee`: append, fill in the id, write back, redirect. -/
def newAttendee.update (r : Request) (eventId attendee : String) (key : Key)
    (event : Event) (st : State) : State :=
  let event := { event with Attendees := event.Attendees ++ [attendee] }
  let event := if event.Id = "" then { event with Id := eventId } else event
  match st.Put key event with
  | (.error _, st1) => st1.Error "Internal Server Error" 500
  | (.ok _, st1) => st1.Redirect r.Method ("/events/" ++ eventId) 303

/-- The handler `newAttendee` (lines 131-179).  `ErrNoSuchEntity` writes `Not Found`
and, having no `return`, goes on with the zero event; any other error
returns after `Internal Server Error`. -/
def newAttendee (env : Env) (r : Request) (eventId : String) (st : State) : State :=
  match r.Form with
  | .error _ => st.Error "Internal Server Error" 500
  | .ok form =>
    let attendee := form.Get "attendee"
    let key := resolveKey env eventId
    match st.Get key with
    | (.ok e, st1) => newAttendee.update r eventId attendee key e st1
    | (.error .ErrNoSuchEntity, st1) =>
      newAttendee.update r eventId attendee key Event.zero (st1.Error "Not Found" 404)
    | (.error _, st1) => st1.Error "Internal Server Error" 500

/-! ## Router -/

/-- The handler `eventRouter` (lines 181-231): dispatch on the number of fragments
of the trimmed path and on the method.  Branches that write nothing leave
the state as it is.  With three fragments it is the POST branch that calls
`newAttendee` and the GET branch that is empty (the two comments of the
source on these branches are swapped). -/
def eventRouter (env : Env) (r : Request) (st : State) : State :=
  let trimmed := Trim r.Path "/"
  let fragments := Split trimmed '/'
  match fragments with
  | [f0] =>
    if r.Method = "GET" then
      if f0 = "events" then st.Redirect r.Method "/" 302
      else st.Redirect r.Method ("/events/" ++ f0) 302
    else if r.Method = "POST" then
      if f0 = "events" then newEvent env r st
      else st.Error "Method Not Allowed" 405
    else st
  | [_, f1] =>
    if r.Method = "GET" then getEvent env r f1 st
    else st
  | [_, f1, _] =>
    if r.Method = "GET" then st
    else if r.Method = "POST" then newAttendee env r f1 st
    else st.Error "Method Not Allowed" 405
  | _ => st.Error "Not Found" 404

/-- Path depth as the specification counts it: the number of non-empty
fragments between slashes. -/
def depth (path : String) : Nat :=
  ((splitChars '/' path.data).filter (fun f => !f.isEmpty)).length

/-! ## Concrete inputs -/

/-- A sample environment: one encoded key, `KEY1`, for the generated key with
integer id 1; the template never fails. -/
def sampleEnv : Env :=
  { DecodeKey := fun s => if s = "KEY1" then some (NewKey "Event" "" 1) else none,
    Encode := fun _ => "KEY1",
    templateFails := fun _ => false,
    Encode_base64 := fun _ =>
      (by decide : ∀ c ∈ ("KEY1" : String).data, isBase64URL c = true) }

/-- The empty store. -/
def emptyStore : Store :=
  { ents := fun _ => none, lastID := 0 }

/-- A store with one event, at the key with string id `id`. -/
def singleStore (id : String) (e : Event) : Store :=
  { ents := fun q => if q = NewKey "Event" id 0 then some e else none, lastID := 0 }

/-- A sample event with the given id and no attendees. -/
def sampleEvent (id : String) : Event :=
  { Id := id, Title := "Party", Description := "Fun", Location := "Home",
    Start := "19:00", End := "23:00", POC := "Carol", Attendees := [] }

/-- An event with 19993 attendees: with its seven string fields it has exactly
`maxIndexedProperties` indexed properties. -/
def crowdedEvent : Event :=
  { sampleEvent "party" with Attendees := List.replicate 19993 "x" }

/-- A creation form with the given id and all six required fields. -/
def fullForm (id : String) : Values :=
  [("id", [id]), ("title", ["Party"]), ("description", ["Fun"]), ("location", ["Home"]),
   ("start", ["19:00"]), ("end", ["23:00"]), ("poc", ["Carol"])]

/-- A creation form with the given id, a title and nothing else. -/
def titleOnlyForm (id : String) : Values :=
  [("id", [id]), ("title", ["Party"])]

/-- A request with a parsed form. -/
def formRequest (method path : String) (form : Values) : Request :=
  { Method := method, Path := path, Form := .ok form }

/-! ## Response writer lemmas -/

@[simp] theorem ResponseWriter.Set_status (w : ResponseWriter) (k v : String) :
    (w.Set k v).status = w.status := rfl

@[simp] theorem ResponseWriter.Set_sent (w : ResponseWriter) (k v : String) :
    (w.Set k v).sent = w.sent := rfl

theorem ResponseWriter.WriteHeader_of_some {w : ResponseWriter} {c : Nat}
    (h : w.status = some c) (d : Nat) : w.WriteHeader d = w := by
  simp [ResponseWriter.WriteHeader, h]

theorem ResponseWriter.Write_status_of_some {w : ResponseWriter} {c : Nat}
    (h : w.status = some c) (x : Chunk) : (w.Write x).status = some c := by
  simp [ResponseWriter.Write, ResponseWriter.WriteHeader_of_some h, h]

theorem ResponseWriter.Error_status_of_some {w : ResponseWriter} {c : Nat}
    (h : w.status = some c) (msg : String) (d : Nat) : (w.Error msg d).status = some c := by
  have h2 : ((w.Set "Content-Type" "text/plain; charset=utf-8").Set
      "X-Content-Type-Options" "nosniff").status = some c := by simpa using h
  simp only [ResponseWriter.Error]
  rw [ResponseWriter.WriteHeader_of_some h2]
  exact ResponseWriter.Write_status_of_some h2 _

theorem ResponseWriter.Error_status_of_none {w : ResponseWriter}
    (h : w.status = none) (msg : String) (d : Nat) : (w.Error msg d).status = some d := by
  simp [ResponseWriter.Error, ResponseWriter.Write, ResponseWriter.WriteHeader, h]

theorem ResponseWriter.Redirect_status_of_some {w : ResponseWriter} {c : Nat}
    (h : w.status = some c) (method url : String) (d : Nat) :
    (w.Redirect method url d).status = some c := by
  simp only [ResponseWriter.Redirect]
  split <;> split <;>
    simp [ResponseWriter.Write, ResponseWriter.WriteHeader, h]

theorem ResponseWriter.Redirect_status_of_none {w : ResponseWriter}
    (h : w.status = none) (method url : String) (d : Nat) :
    (w.Redirect method url d).status = some d := by
  simp only [ResponseWriter.Redirect]
  split <;> split <;>
    simp [ResponseWriter.Write, ResponseWriter.WriteHeader, h]

theorem ResponseWriter.Redirect_Location_of_none {w : ResponseWriter}
    (h : w.status = none) (method url : String) (d : Nat) :
    (w.Redirect method url d).Location = some (hexEscapeNonASCII (redirectURL url)) := by
  simp only [ResponseWriter.Redirect, ResponseWriter.Location]
  split <;> split <;>
    simp [ResponseWriter.Write, ResponseWriter.WriteHeader, ResponseWriter.Set, h, List.lookup]

/-! ## Redirect target lemmas -/

/-- Splitting always yields at least one fragment. -/
theorem splitChars_ne_nil (sep : Char) (l : List Char) : splitChars sep l ≠ [] := by
  induction l with
  | nil => simp [splitChars]
  | cons c t ih =>
    unfold splitChars
    split
    · simp
    · split <;> simp

theorem splitChars_append_sep (sep : Char) (x y : List Char) :
    splitChars sep (x ++ sep :: y) = splitChars sep x ++ splitChars sep y := by
  induction x with
  | nil => simp [splitChars]
  | cons c t ih =>
    by_cases hc : c = sep
    · simp [splitChars, hc, ih]
    · have hne := splitChars_ne_nil sep t
      cases hs : splitChars sep t with
      | nil => exact absurd hs hne
      | cons f fs => simp [splitChars, hc, ih, hs]

theorem splitChars_of_not_mem (l : List Char) (h : '/' ∉ l) : splitChars '/' l = [l] := by
  induction l with
  | nil => rfl
  | cons c t ih =>
    have hc : c ≠ '/' := fun hc => h (by simp [hc])
    have ht : '/' ∉ t := fun ht => h (by simp [ht])
    simp [splitChars, hc, ih ht]

/-- The fragments of `/events/` followed by a fragment. -/
theorem splitChars_events (t : List Char) (h : '/' ∉ t) :
    splitChars '/' ('/' :: 'e' :: 'v' :: 'e' :: 'n' :: 't' :: 's' :: '/' :: t) =
      [[], ['e', 'v', 'e', 'n', 't', 's'], t] := by
  have h1 : '/' :: 'e' :: 'v' :: 'e' :: 'n' :: 't' :: 's' :: '/' :: t =
      [] ++ '/' :: (['e', 'v', 'e', 'n', 't', 's'] ++ '/' :: t) := rfl
  rw [h1, splitChars_append_sep, splitChars_append_sep, splitChars_of_not_mem t h]
  rfl

/-- Cleaning `/events/` followed by a fragment that is not `.` or `..` gives the
same path, up to the trailing slash of `/events/` itself. -/
theorem cleanChars_events (t : List Char) (h : '/' ∉ t) (hd : t ≠ ['.'])
    (hdd : t ≠ ['.', '.']) :
    cleanChars ('/' :: 'e' :: 'v' :: 'e' :: 'n' :: 't' :: 's' :: '/' :: t) =
      if t = [] then ['/', 'e', 'v', 'e', 'n', 't', 's']
      else '/' :: 'e' :: 'v' :: 'e' :: 'n' :: 't' :: 's' :: '/' :: t := by
  simp only [cleanChars, splitChars_events t h]
  by_cases ht : t = []
  · subst ht
    decide
  · simp [cleanStep, ht, hd, hdd, joinSlash]

theorem getLast?_ne_slash (p t : List Char) (ht : t ≠ []) (h : '/' ∉ t) :
    ((p ++ t).getLast? == some '/') = false := by
  rw [List.getLast?_append_of_ne_nil p ht]
  cases hl : t.getLast? with
  | none => rfl
  | some c =>
    have hc : c ∈ t := List.mem_of_getLast?_eq_some hl
    have : c ≠ '/' := fun hx => h (hx ▸ hc)
    simp [this]

/-- The url `http.Redirect` goes on with is the url itself, for `/events/` followed
by a fragment whose part before the first `?` is not `.` or `..`. -/
theorem redirectURL_events (t : List Char) (h : '/' ∉ t)
    (hd : t.takeWhile (fun c => c != '?') ≠ ['.'])
    (hdd : t.takeWhile (fun c => c != '?') ≠ ['.', '.']) :
    redirectURL ("/events/" ++ String.mk t) = "/events/" ++ String.mk t := by
  have hdata : ("/events/" ++ String.mk t).data =
      '/' :: 'e' :: 'v' :: 'e' :: 'n' :: 't' :: 's' :: '/' :: t := by
    rw [String.data_append]
    rfl
  have h1 : '/' ∉ t.takeWhile (fun c => c != '?') :=
    fun hm => h (List.takeWhile_subset _ hm)
  have hq : t.takeWhile (fun c => c != '?') ++ t.dropWhile (fun c => c != '?') = t :=
    List.takeWhile_append_dropWhile _ _
  have htake : ('/' :: 'e' :: 'v' :: 'e' :: 'n' :: 't' :: 's' :: '/' :: t).takeWhile
      (fun c => c != '?') =
      '/' :: 'e' :: 'v' :: 'e' :: 'n' :: 't' :: 's' :: '/' ::
        t.takeWhile (fun c => c != '?') := by
    simp [List.takeWhile]
  have hdrop : ('/' :: 'e' :: 'v' :: 'e' :: 'n' :: 't' :: 's' :: '/' :: t).dropWhile
      (fun c => c != '?') = t.dropWhile (fun c => c != '?') := by
    simp [List.dropWhile]
  unfold redirectURL
  split
  · apply String.ext
    rw [hdata, htake, hdrop]
    simp only []
    rw [cleanChars_events _ h1 hd hdd]
    by_cases ht : t.takeWhile (fun c => c != '?') = []
    · rw [ht] at hq
      simp only [ht, if_true, List.nil_append] at hq ⊢
      rw [hq]
      rfl
    · have hl := getLast?_ne_slash ['/', 'e', 'v', 'e', 'n', 't', 's', '/'] _ ht h1
      simp only [List.cons_append, List.nil_append] at hl
      simp only [ht, if_false, hl, Bool.false_and, Bool.false_eq_true]
      simp [hq]
  · rfl

theorem hexEscapeNonASCII_of_ascii (l : List Char) (h : ∀ c ∈ l, c.toNat < 128) :
    hexEscapeNonASCII (String.mk l) = String.mk l := by
  unfold hexEscapeNonASCII
  apply String.ext
  simp only
  induction l with
  | nil => rfl
  | cons c t ih =>
    have hc : c.toNat < 128 := h c (by simp)
    have ht : ∀ x ∈ t, x.toNat < 128 := fun x hx => h x (by simp [hx])
    simp [List.flatMap_cons, hc, ih ht]

/-- The `Location` value of a redirect to `/events/` followed by a fragment of ASCII
characters whose part before the first `?` is not `.` or `..`: the url
as the handler passed it. -/
theorem redirect_events_eq (t : String) (hs : '/' ∉ t.data) (ha : ∀ c ∈ t.data, c.toNat < 128)
    (hd : t.data.takeWhile (fun c => c != '?') ≠ ['.'])
    (hdd : t.data.takeWhile (fun c => c != '?') ≠ ['.', '.']) :
    hexEscapeNonASCII (redirectURL ("/events/" ++ t)) = "/events/" ++ t := by
  have ht : t = String.mk t.data := rfl
  rw [ht, redirectURL_events t.data hs hd hdd]
  have hdata : "/events/" ++ String.mk t.data =
      String.mk ('/' :: 'e' :: 'v' :: 'e' :: 'n' :: 't' :: 's' :: '/' :: t.data) := by
    apply String.ext
    rw [String.data_append]
    rfl
  rw [hdata]
  apply hexEscapeNonASCII_of_ascii
  intro c hc
  simp only [List.mem_cons] at hc
  rcases hc with h | h | h | h | h | h | h | h | h
  all_goals first | exact ha c h | (subst h; decide)

theorem isBase64URL_ascii (c : Char) (h : isBase64URL c = true) : c.toNat < 128 := by
  simp only [isBase64URL, Bool.or_eq_true, Bool.and_eq_true, decide_eq_true_eq,
    beq_iff_eq] at h
  rcases h with h | h
  · rcases h with h | h
    · omega
    · subst h; decide
  · subst h; decide

/-- The fragments that URL-safe base64 can spell are covered by `redirect_events_eq`. -/
theorem redirect_events_base64 (t : String) (hb : ∀ c ∈ t.data, isBase64URL c = true) :
    hexEscapeNonASCII (redirectURL ("/events/" ++ t)) = "/events/" ++ t := by
  have hslash : isBase64URL '/' = false := by decide
  have hdot : isBase64URL '.' = false := by decide
  apply redirect_events_eq
  · intro hm
    have := hb _ hm
    rw [hslash] at this
    exact absurd this (by decide)
  · exact fun c hc => isBase64URL_ascii c (hb c hc)
  · intro h
    have hm : '.' ∈ t.data := List.takeWhile_subset _ (by rw [h]; simp)
    have := hb _ hm
    rw [hdot] at this
    exact absurd this (by decide)
  · intro h
    have hm : '.' ∈ t.data := List.takeWhile_subset _ (by rw [h]; simp)
    have := hb _ hm
    rw [hdot] at this
    exact absurd this (by decide)

/-! ## Handler state lemmas -/

@[simp] theorem State.Error_store (st : State) (msg : String) (c : Nat) :
    (st.Error msg c).store = st.store := rfl

@[simp] theorem State.Error_ops (st : State) (msg : String) (c : Nat) :
    (st.Error msg c).ops = st.ops := rfl

@[simp] theorem State.Error_w (st : State) (msg : String) (c : Nat) :
    (st.Error msg c).w = st.w.Error msg c := rfl

@[simp] theorem State.Redirect_store (st : State) (m u : String) (c : Nat) :
    (st.Redirect m u c).store = st.store := rfl

@[simp] theorem State.Redirect_ops (st : State) (m u : String) (c : Nat) :
    (st.Redirect m u c).ops = st.ops := rfl

@[simp] theorem State.Redirect_w (st : State) (m u : String) (c : Nat) :
    (st.Redirect m u c).w = st.w.Redirect m u c := rfl

@[simp] theorem State.GetPtrPtr_w (st : State) (key : Key) :
    (st.GetPtrPtr key).2.w = st.w := rfl

@[simp] theorem State.Get_w (st : State) (key : Key) : (st.Get key).2.w = st.w := rfl

@[simp] theorem State.Put_w (st : State) (key : Key) (e : Event) :
    (st.Put key e).2.w = st.w := by
  unfold State.Put; split <;> rfl

/-- Once a status was sent, the tail of `newEvent` cannot change it. -/
theorem newEvent.put_status_of_some (env : Env) (r : Request) (event : Event) {st : State}
    {c : Nat} (h : st.w.status = some c) : (newEvent.put env r event st).w.status = some c := by
  have hw := State.Put_w st (NewKey "Event" event.Id 0) event
  simp only [newEvent.put]
  rcases hp : st.Put (NewKey "Event" event.Id 0) event with ⟨res, st1⟩
  rw [hp] at hw
  simp only at hw
  cases res with
  | error e => simpa [hw] using ResponseWriter.Error_status_of_some h _ _
  | ok k => simpa [hw] using ResponseWriter.Redirect_status_of_some h _ _ _

/-- Once a status was sent, the probe and the tail of `newEvent` cannot change it. -/
theorem newEvent.checkTaken_status_of_some (env : Env) (r : Request) (event : Event)
    {st : State} {c : Nat} (h : st.w.status = some c) :
    (newEvent.checkTaken env r event st).w.status = some c := by
  simp only [newEvent.checkTaken]
  by_cases hid : event.Id = ""
  · simpa [hid] using newEvent.put_status_of_some env r event h
  · simp only [ne_eq, hid, not_false_eq_true, if_true]
    have hw := State.GetPtrPtr_w st (NewKey "Event" event.Id 0)
    rcases hp : st.GetPtrPtr (NewKey "Event" event.Id 0) with ⟨res, st1⟩
    rw [hp] at hw
    simp only at hw
    have h1 : st1.w.status = some c := by rw [hw]; exact h
    rcases res with e | u
    · cases e
      · exact newEvent.put_status_of_some env r event h1
      all_goals simpa [hw] using ResponseWriter.Error_status_of_some h _ _
    · simpa [hw] using ResponseWriter.Error_status_of_some h _ _


theorem NewKey_valid (id : String) : (NewKey "Event" id 0).valid = true := by
  simp [NewKey, Key.valid]

theorem NewKey_Incomplete_of_ne {id : String} (h : id ≠ "") :
    (NewKey "Event" id 0).Incomplete = false := by
  simp [NewKey, Key.Incomplete, h]

/-- The probe of `newEvent` on an id that is taken fails with an error other
than `ErrNoSuchEntity`. -/
theorem Store.GetPtrPtr_taken {s : Store} {id : String} {e : Event} (h : id ≠ "")
    (hrec : s.ents (NewKey "Event" id 0) = some e) :
    s.GetPtrPtr (NewKey "Event" id 0) = .error .ErrInvalidEntityType := by
  simp [Store.GetPtrPtr, Store.Get, NewKey_valid id, NewKey_Incomplete_of_ne h, hrec]

/-- On an id that is taken, the probe of `newEvent` is logged and answered with
`Conflict`; nothing else happens. -/
theorem newEvent.checkTaken_taken (env : Env) (r : Request) (event : Event) (st : State)
    (e : Event) (hne : event.Id ≠ "")
    (hrec : st.store.ents (NewKey "Event" event.Id 0) = some e) :
    newEvent.checkTaken env r event st =
      State.Error { st with ops := st.ops ++ [.get (NewKey "Event" event.Id 0)] }
        "Conflict" 409 := by
  simp only [newEvent.checkTaken, hne, ne_eq, not_false_eq_true, if_true, State.GetPtrPtr,
    Store.GetPtrPtr_taken hne hrec]

/-- C4: for every form whose id field is the reserved literal, whatever the
other fields and the store, the response of `newEvent` has status 409. -/
theorem newEvent_reserved_id_status_409 (env : Env) (r : Request) (s : Store) (form : Values)
    (hf : r.Form = .ok form) (hid : form.Get "id" = "events") :
    (newEvent env r (State.init s)).w.status = some 409 := by
  simp only [newEvent, hf, NewEvent, hid, if_true]
  exact newEvent.checkTaken_status_of_some env r _ rfl

/-- Witness of C4 at a creation form with the reserved id and only a title, on the empty store. -/
theorem newEvent_reserved_id_status_409_witness :
    (newEvent sampleEnv (formRequest "POST" "/events" (titleOnlyForm "events"))
      (State.init emptyStore)).w.status = some 409 :=
  newEvent_reserved_id_status_409 sampleEnv _ emptyStore (titleOnlyForm "events") rfl
    (by decide)

/-- C8: when the id is not the reserved literal and one of the six required
fields is empty, `newEvent` answers 400, makes no datastore call and leaves
the store as it was. -/
theorem newEvent_missing_field_400 (env : Env) (r : Request) (s : Store) (form : Values)
    (hf : r.Form = .ok form) (hid : form.Get "id" ≠ "events")
    (hmiss : form.Get "title" = "" ∨ form.Get "description" = "" ∨
      form.Get "location" = "" ∨ form.Get "start" = "" ∨ form.Get "end" = "" ∨
      form.Get "poc" = "") :
    (newEvent env r (State.init s)).w.status = some 400 ∧
    (newEvent env r (State.init s)).store = s ∧
    (newEvent env r (State.init s)).ops = [] := by
  simp only [newEvent, hf, NewEvent, hid, if_false, hmiss, if_true]
  exact ⟨rfl, rfl, rfl⟩

/-- Witness of C8 at a form with id `party` and an empty `poc`. -/
theorem newEvent_missing_field_400_witness :
    (newEvent sampleEnv (formRequest "POST" "/events" (titleOnlyForm "party"))
      (State.init emptyStore)).w.status = some 400 ∧
    (newEvent sampleEnv (formRequest "POST" "/events" (titleOnlyForm "party"))
      (State.init emptyStore)).store = emptyStore ∧
    (newEvent sampleEnv (formRequest "POST" "/events" (titleOnlyForm "party"))
      (State.init emptyStore)).ops = [] :=
  newEvent_missing_field_400 sampleEnv _ emptyStore (titleOnlyForm "party") rfl
    (by decide) (by decide)

/-- C5, as amended: when the non-empty id is taken, `newEvent` makes no write and
leaves the store unchanged, so the record at the key is what it was; the
status is 400 when the id is not the reserved literal and a required field
is empty, and 409 otherwise. -/
theorem newEvent_taken_id_rejected (env : Env) (r : Request) (s : Store) (form : Values)
    (e : Event) (hf : r.Form = .ok form) (hne : form.Get "id" ≠ "")
    (hrec : s.ents (NewKey "Event" (form.Get "id") 0) = some e) :
    (newEvent env r (State.init s)).store = s ∧
    (newEvent env r (State.init s)).store.ents (NewKey "Event" (form.Get "id") 0) = some e ∧
    (newEvent env r (State.init s)).writes = 0 ∧
    (newEvent env r (State.init s)).w.status =
      some (if form.Get "id" ≠ "events" ∧
          (form.Get "title" = "" ∨ form.Get "description" = "" ∨
            form.Get "location" = "" ∨ form.Get "start" = "" ∨ form.Get "end" = "" ∨
            form.Get "poc" = "") then 400 else 409) := by
  simp only [newEvent, hf, NewEvent]
  by_cases hid : form.Get "id" = "events"
  · rw [if_pos hid, newEvent.checkTaken_taken env r _ _ e hne hrec]
    have hrec2 := hrec
    rw [hid] at hrec2
    simp only [ne_eq, hid, not_true_eq_false, false_and, if_false]
    exact ⟨rfl, hrec2, rfl, rfl⟩
  · by_cases hmiss : form.Get "title" = "" ∨ form.Get "description" = "" ∨
      form.Get "location" = "" ∨ form.Get "start" = "" ∨ form.Get "end" = "" ∨
      form.Get "poc" = ""
    · simp only [hid, if_false, hmiss, if_true, ne_eq, not_false_eq_true, and_self]
      exact ⟨rfl, hrec, rfl, rfl⟩
    · rw [if_neg hid, if_neg hmiss, newEvent.checkTaken_taken env r _ _ e hne hrec]
      simp only [hmiss, and_false, if_false]
      exact ⟨rfl, hrec, rfl, rfl⟩

/-- Witness of C5 as amended: id `party` is taken and the second form has every field. -/
theorem newEvent_taken_id_rejected_witness :
    (newEvent sampleEnv (formRequest "POST" "/events" (fullForm "party"))
      (State.init (singleStore "party" (sampleEvent "party")))).store =
      singleStore "party" (sampleEvent "party") ∧
    (newEvent sampleEnv (formRequest "POST" "/events" (fullForm "party"))
      (State.init (singleStore "party" (sampleEvent "party")))).w.status = some 409 := by
  have h := newEvent_taken_id_rejected sampleEnv
    (formRequest "POST" "/events" (fullForm "party"))
    (singleStore "party" (sampleEvent "party")) (fullForm "party") (sampleEvent "party")
    rfl (by decide) (by decide)
  exact ⟨h.1, h.2.2.2⟩

/-- Counterexample to C5 as stated: id `party` is taken, the second form has an
empty `poc`, and the answer is 400 rather than 409. -/
theorem newEvent_taken_id_missing_field_is_400 :
    (titleOnlyForm "party").Get "id" ≠ "" ∧
    (singleStore "party" (sampleEvent "party")).ents
      (NewKey "Event" ((titleOnlyForm "party").Get "id") 0) = some (sampleEvent "party") ∧
    (newEvent sampleEnv (formRequest "POST" "/events" (titleOnlyForm "party"))
      (State.init (singleStore "party" (sampleEvent "party")))).w.status = some 400 ∧
    (newEvent sampleEnv (formRequest "POST" "/events" (titleOnlyForm "party"))
      (State.init (singleStore "party" (sampleEvent "party")))).w.status ≠ some 409 := by
  decide


/-! ## Store lemmas -/

theorem Store.Get_ok_iff (s : Store) (k : Key) (e : Event) :
    s.Get k = .ok e ↔ k.valid = true ∧ k.Incomplete = false ∧ s.ents k = some e := by
  unfold Store.Get
  cases hv : k.valid <;> cases hi : k.Incomplete <;> simp
  cases he : s.ents k <;> simp

theorem Store.Put_complete (s : Store) (k : Key) (e : Event) (hv : k.valid = true)
    (hi : k.Incomplete = false) (hp : e.indexedProperties ≤ maxIndexedProperties) :
    s.Put k e =
      .ok (k, { ents := fun q => if q = k then some e else s.ents q, lastID := s.lastID }) := by
  simp [Store.Put, hv, hi, Nat.not_lt.mpr hp]

theorem Store.Put_too_many (s : Store) (k : Key) (e : Event) (hv : k.valid = true)
    (hp : maxIndexedProperties < e.indexedProperties) : s.Put k e = .error .other := by
  simp [Store.Put, hv, hp]

theorem Store.Put_generated (s : Store) (e : Event)
    (hp : e.indexedProperties ≤ maxIndexedProperties) :
    s.Put (NewKey "Event" "" 0) e =
      .ok (NewKey "Event" "" (s.lastID + 1),
        { ents := fun q => if q = NewKey "Event" "" (s.lastID + 1) then some e else s.ents q,
          lastID := s.lastID + 1 }) := by
  simp [Store.Put, NewKey, Key.valid, Key.Incomplete, Nat.not_lt.mpr hp]

theorem Store.Get_generated (ents : Key → Option Event) (n m : Nat) (e : Event)
    (h : ents (NewKey "Event" "" (n + 1)) = some e) :
    Store.Get { ents := ents, lastID := m } (NewKey "Event" "" (n + 1)) = .ok e := by
  rw [Store.Get_ok_iff]
  refine ⟨by simp [NewKey, Key.valid], by simp [NewKey, Key.Incomplete], h⟩

@[simp] theorem State.Error_executed (st : State) (msg : String) (c : Nat) :
    (st.Error msg c).executed = st.executed := rfl

/-- What `getEvent` does when the record is found: the template is executed once,
on the record with its id filled in, and its rendering is the response
unless it fails. -/
theorem getEvent_found (env : Env) (r : Request) (eventId : String) (st : State) (e : Event)
    (hget : st.store.Get (resolveKey env eventId) = .ok e) :
    (getEvent env r eventId st).executed =
      st.executed ++ [("event.html", if e.Id = "" then { e with Id := eventId } else e)] ∧
    (env.templateFails (if e.Id = "" then { e with Id := eventId } else e) = false →
      (getEvent env r eventId st).w =
        st.w.Write (.template "event.html" (if e.Id = "" then { e with Id := eventId } else e)))
    := by
  simp only [getEvent, State.Get, hget, State.ExecuteTemplate]
  cases htf : env.templateFails (if e.Id = "" then { e with Id := eventId } else e) <;> simp

/-- C6: a creation form without id and with the six required fields is
answered 303 with target `/events/` followed by the encoded form of the key
the store generated, by one write; and when that encoded form decodes to the
key, `getEvent` on it executes the event template, once, on an event that
carries the six submitted values and no attendee, which is the response
body with status 200 unless the template fails. -/
theorem newEvent_generated_key_roundtrip (env : Env) (r r2 : Request) (s s1 : Store)
    (form : Values) (k : Key)
    (hf : r.Form = .ok form) (hid : form.Get "id" = "")
    (ht : form.Get "title" ≠ "") (hd : form.Get "description" ≠ "")
    (hl : form.Get "location" ≠ "") (hs : form.Get "start" ≠ "")
    (he : form.Get "end" ≠ "") (hp : form.Get "poc" ≠ "")
    (hput : s.Put (NewKey "Event" "" 0) (NewEvent form).2 = .ok (k, s1))
    (hdec : env.DecodeKey (env.Encode k) = some k) :
    (newEvent env r (State.init s)).w.status = some 303 ∧
    (newEvent env r (State.init s)).w.Location = some ("/events/" ++ env.Encode k) ∧
    (newEvent env r (State.init s)).writes = 1 ∧
    ∃ ev : Event,
      (getEvent env r2 (env.Encode k) (State.init (newEvent env r (State.init s)).store)).executed
        = [("event.html", ev)] ∧
      ev.Title = form.Get "title" ∧ ev.Description = form.Get "description" ∧
      ev.Location = form.Get "location" ∧ ev.Start = form.Get "start" ∧
      ev.End = form.Get "end" ∧ ev.POC = form.Get "poc" ∧ ev.Attendees = [] ∧
      (env.templateFails ev = false →
        (getEvent env r2 (env.Encode k)
          (State.init (newEvent env r (State.init s)).store)).w.status = some 200 ∧
        (getEvent env r2 (env.Encode k)
          (State.init (newEvent env r (State.init s)).store)).w.body
          = [.template "event.html" ev]) := by
  have hne : ¬ ("" : String) = "events" := by decide
  have hmiss : ¬ (form.Get "title" = "" ∨ form.Get "description" = "" ∨
      form.Get "location" = "" ∨ form.Get "start" = "" ∨ form.Get "end" = "" ∨
      form.Get "poc" = "") := by simp [ht, hd, hl, hs, he, hp]
  have hprops : (NewEvent form).2.indexedProperties ≤ maxIndexedProperties := by
    simp [NewEvent, Event.indexedProperties, maxIndexedProperties]
  have hput0 := hput
  simp only [NewEvent, hid] at hput0
  rw [Store.Put_generated _ _ hprops] at hput
  injection hput with hput
  injection hput with hk hs1
  subst hk
  have hnew : newEvent env r (State.init s) =
      State.Redirect
        { store := s1, w := ResponseWriter.fresh,
          ops := [.put (NewKey "Event" "" 0) (NewEvent form).2], executed := [] }
        r.Method ("/events/" ++ env.Encode (NewKey "Event" "" (s.lastID + 1))) 303 := by
    simp only [newEvent, hf, NewEvent, hid, hne, if_false, hmiss, newEvent.checkTaken,
      ne_eq, not_true_eq_false, newEvent.put, State.Put, State.init, hput0,
      if_true, List.nil_append]
  rw [hnew]
  refine ⟨ResponseWriter.Redirect_status_of_none rfl _ _ _,
    (ResponseWriter.Redirect_Location_of_none rfl _ _ _).trans
      (congrArg some (redirect_events_base64 _ (env.Encode_base64 _))), rfl, ?_⟩
  subst hs1
  have hget : Store.Get
      { ents := fun q => if q = NewKey "Event" "" (s.lastID + 1) then some (NewEvent form).2
          else s.ents q,
        lastID := s.lastID + 1 } (NewKey "Event" "" (s.lastID + 1)) = .ok (NewEvent form).2 :=
    Store.Get_generated _ _ _ _ (by simp)
  have hfound := getEvent_found env r2 (env.Encode (NewKey "Event" "" (s.lastID + 1)))
    (State.init _) (NewEvent form).2 (by simp only [resolveKey, hdec]; exact hget)
  have hzero : (NewEvent form).2.Id = "" := hid
  rw [if_pos hzero] at hfound
  refine ⟨{ (NewEvent form).2 with Id := env.Encode (NewKey "Event" "" (s.lastID + 1)) },
    hfound.1, rfl, rfl, rfl, rfl, rfl, rfl, rfl, ?_⟩
  intro htf
  have hw := hfound.2 htf
  exact ⟨congrArg ResponseWriter.status hw, congrArg ResponseWriter.body hw⟩

theorem Store.Get_Put_same (s : Store) (k : Key) (e0 e : Event) (h : s.Get k = .ok e0)
    (hp : e.indexedProperties ≤ maxIndexedProperties) :
    ∃ s1, s.Put k e = .ok (k, s1) ∧ s1.Get k = .ok e := by
  rw [Store.Get_ok_iff] at h
  refine ⟨_, Store.Put_complete s k e h.1 h.2.1 hp, ?_⟩
  rw [Store.Get_ok_iff]
  exact ⟨h.1, h.2.1, by simp⟩

/-- What `newAttendee` does when the record is found and has room for one more
indexed property: the record read back from the same key afterwards is the
old one with the name appended and, if it had none, the id filled in. -/
theorem newAttendee_found (env : Env) (r : Request) (eventId : String) (st : State)
    (form : Values) (e : Event) (hf : r.Form = .ok form)
    (hget : st.store.Get (resolveKey env eventId) = .ok e)
    (hroom : 7 + (e.Attendees.length + 1) ≤ maxIndexedProperties) :
    ∃ e1 : Event,
      (newAttendee env r eventId st).store.Get (resolveKey env eventId) = .ok e1 ∧
      e1.Attendees = e.Attendees ++ [form.Get "attendee"] ∧
      e1.Title = e.Title ∧ e1.Description = e.Description ∧ e1.Location = e.Location ∧
      e1.Start = e.Start ∧ e1.End = e.End ∧ e1.POC = e.POC := by
  by_cases hid : e.Id = ""
  · obtain ⟨s1, hput, hread⟩ := Store.Get_Put_same st.store (resolveKey env eventId) e
      { e with Attendees := e.Attendees ++ [form.Get "attendee"], Id := eventId } hget
      (by simpa [Event.indexedProperties] using hroom)
    refine ⟨{ e with Attendees := e.Attendees ++ [form.Get "attendee"], Id := eventId },
      ?_, rfl, rfl, rfl, rfl, rfl, rfl, rfl⟩
    simp only [newAttendee, hf, State.Get, hget, newAttendee.update, hid, if_true, State.Put,
      hput]
    exact hread
  · obtain ⟨s1, hput, hread⟩ := Store.Get_Put_same st.store (resolveKey env eventId) e
      { e with Attendees := e.Attendees ++ [form.Get "attendee"] } hget
      (by simpa [Event.indexedProperties] using hroom)
    refine ⟨{ e with Attendees := e.Attendees ++ [form.Get "attendee"] },
      ?_, rfl, rfl, rfl, rfl, rfl, rfl, rfl⟩
    simp only [newAttendee, hf, State.Get, hget, newAttendee.update, hid, if_false, State.Put,
      hput]
    exact hread

/-- What `newAttendee` does when the record is found and has no room for one more
indexed property: `datastore.Put` fails, the answer is 500 and the store is
left as it was. -/
theorem newAttendee_no_room (env : Env) (r : Request) (eventId : String) (s : Store)
    (form : Values) (e : Event) (hf : r.Form = .ok form)
    (hget : s.Get (resolveKey env eventId) = .ok e)
    (hfull : maxIndexedProperties < 7 + (e.Attendees.length + 1)) :
    (newAttendee env r eventId (State.init s)).store = s ∧
    (newAttendee env r eventId (State.init s)).w.status = some 500 := by
  have hv := ((Store.Get_ok_iff _ _ _).1 hget).1
  by_cases hid : e.Id = ""
  · have hput := Store.Put_too_many s (resolveKey env eventId)
      { e with Attendees := e.Attendees ++ [form.Get "attendee"], Id := eventId } hv
      (by simpa [Event.indexedProperties] using hfull)
    simp only [newAttendee, hf, State.Get, State.init, hget, newAttendee.update, hid, if_true,
      State.Put, hput]
    exact ⟨rfl, rfl⟩
  · have hput := Store.Put_too_many s (resolveKey env eventId)
      { e with Attendees := e.Attendees ++ [form.Get "attendee"] } hv
      (by simpa [Event.indexedProperties] using hfull)
    simp only [newAttendee, hf, State.Get, State.init, hget, newAttendee.update, hid, if_false,
      State.Put, hput]
    exact ⟨rfl, rfl⟩

/-- C7, as amended: when the store holds an event at the key an id resolves to
and the record with two more attendees still has at most
`maxIndexedProperties` indexed properties (seven fields and one per
attendee), two `newAttendee` requests on that id, with names `a` then `b`,
leave at that key a record whose attendees are the old ones followed by `a`
and `b`, and whose title, description, location, start, end and poc are
unchanged. -/
theorem newAttendee_twice_appends_in_order (env : Env) (ra rb : Request) (s : Store)
    (eventId : String) (fa fb : Values) (e : Event)
    (ha : ra.Form = .ok fa) (hb : rb.Form = .ok fb)
    (hget : s.Get (resolveKey env eventId) = .ok e)
    (hroom : 7 + (e.Attendees.length + 2) ≤ maxIndexedProperties) :
    ∃ e2 : Event,
      (newAttendee env rb eventId
        (State.init (newAttendee env ra eventId (State.init s)).store)).store.Get
          (resolveKey env eventId) = .ok e2 ∧
      e2.Attendees = e.Attendees ++ [fa.Get "attendee", fb.Get "attendee"] ∧
      e2.Title = e.Title ∧ e2.Description = e.Description ∧ e2.Location = e.Location ∧
      e2.Start = e.Start ∧ e2.End = e.End ∧ e2.POC = e.POC := by
  obtain ⟨e1, h1, ha1, ht1, hd1, hl1, hs1, he1, hp1⟩ :=
    newAttendee_found env ra eventId (State.init s) fa e ha hget (by omega)
  obtain ⟨e2, h2, ha2, ht2, hd2, hl2, hs2, he2, hp2⟩ :=
    newAttendee_found env rb eventId
      (State.init (newAttendee env ra eventId (State.init s)).store) fb e1 hb h1
      (by rw [ha1, List.length_append, List.length_singleton]; omega)
  refine ⟨e2, h2, ?_, ht2.trans ht1, hd2.trans hd1, hl2.trans hl1, hs2.trans hs1,
    he2.trans he1, hp2.trans hp1⟩
  rw [ha2, ha1, List.append_assoc]
  rfl

/-- Witness of C7 as amended: Alice, then Bob, on an event without attendees. -/
theorem newAttendee_twice_appends_in_order_witness :
    ∃ e2 : Event,
      (newAttendee sampleEnv (formRequest "POST" "/events/party/attendees" [("attendee", ["Bob"])])
        "party"
        (State.init (newAttendee sampleEnv
          (formRequest "POST" "/events/party/attendees" [("attendee", ["Alice"])]) "party"
          (State.init (singleStore "party" (sampleEvent "party")))).store)).store.Get
          (resolveKey sampleEnv "party") = .ok e2 ∧
      e2.Attendees = ["Alice", "Bob"] ∧ e2.Title = "Party" := by
  obtain ⟨e2, h, ha, ht, _⟩ := newAttendee_twice_appends_in_order sampleEnv
    (formRequest "POST" "/events/party/attendees" [("attendee", ["Alice"])])
    (formRequest "POST" "/events/party/attendees" [("attendee", ["Bob"])])
    (singleStore "party" (sampleEvent "party")) "party" [("attendee", ["Alice"])]
    [("attendee", ["Bob"])] (sampleEvent "party") rfl rfl rfl (by decide)
  exact ⟨e2, h, ha, ht⟩

/-- Counterexample to C7 as stated: the store holds an event with 19993 attendees
at the key of `party`; `newAttendee` with Alice is answered 500 because
`datastore.Put` refuses the 20001 indexed properties, so is the request
with Bob, and the record read at the end is the old one, whose attendees
are not the old ones followed by Alice and Bob. -/
theorem newAttendee_crowded_record_rejected :
    (singleStore "party" crowdedEvent).Get (resolveKey sampleEnv "party") = .ok crowdedEvent ∧
    (newAttendee sampleEnv
      (formRequest "POST" "/events/party/attendees" [("attendee", ["Alice"])]) "party"
      (State.init (singleStore "party" crowdedEvent))).w.status = some 500 ∧
    (newAttendee sampleEnv (formRequest "POST" "/events/party/attendees" [("attendee", ["Bob"])])
      "party"
      (State.init (newAttendee sampleEnv
        (formRequest "POST" "/events/party/attendees" [("attendee", ["Alice"])]) "party"
        (State.init (singleStore "party" crowdedEvent))).store)).store.Get
        (resolveKey sampleEnv "party") = .ok crowdedEvent ∧
    crowdedEvent.Attendees ≠ crowdedEvent.Attendees ++ ["Alice", "Bob"] := by
  have hget : (singleStore "party" crowdedEvent).Get (resolveKey sampleEnv "party")
      = .ok crowdedEvent := by
    rw [Store.Get_ok_iff]
    refine ⟨by decide, by decide, ?_⟩
    have hk : resolveKey sampleEnv "party" = NewKey "Event" "party" 0 := by decide
    rw [hk]
    simp [singleStore]
  have hfull : maxIndexedProperties < 7 + (crowdedEvent.Attendees.length + 1) := by
    have hA : crowdedEvent.Attendees = List.replicate 19993 "x" := rfl
    rw [hA, List.length_replicate]
    decide
  obtain ⟨hs1, hw1⟩ := newAttendee_no_room sampleEnv
    (formRequest "POST" "/events/party/attendees" [("attendee", ["Alice"])]) "party"
    (singleStore "party" crowdedEvent) [("attendee", ["Alice"])] crowdedEvent rfl hget hfull
  obtain ⟨hs2, _⟩ := newAttendee_no_room sampleEnv
    (formRequest "POST" "/events/party/attendees" [("attendee", ["Bob"])]) "party"
    (singleStore "party" crowdedEvent) [("attendee", ["Bob"])] crowdedEvent rfl hget hfull
  refine ⟨hget, hw1, ?_, ?_⟩
  · rw [hs1, hs2]
    exact hget
  · intro h
    have := congrArg List.length h
    simp at this

/-- Witness of C6: a full form without id on the empty store; the generated key
is encoded as `KEY1`. -/
theorem newEvent_generated_key_roundtrip_witness :
    (newEvent sampleEnv (formRequest "POST" "/events" (fullForm ""))
      (State.init emptyStore)).w.status = some 303 ∧
    (newEvent sampleEnv (formRequest "POST" "/events" (fullForm ""))
      (State.init emptyStore)).w.Location = some "/events/KEY1" ∧
    ∃ ev : Event,
      (getEvent sampleEnv (formRequest "GET" "/events/KEY1" []) "KEY1"
        (State.init (newEvent sampleEnv (formRequest "POST" "/events" (fullForm ""))
          (State.init emptyStore)).store)).executed = [("event.html", ev)] ∧
      ev.Title = "Party" ∧ ev.POC = "Carol" ∧ ev.Attendees = [] := by
  obtain ⟨h1, h2, _, ev, h4, ht, _, _, _, _, hp, ha, _⟩ :=
    newEvent_generated_key_roundtrip sampleEnv
      (formRequest "POST" "/events" (fullForm "")) (formRequest "GET" "/events/KEY1" [])
      emptyStore _ (fullForm "") (NewKey "Event" "" 1) rfl (by decide) (by decide) (by decide)
      (by decide) (by decide) (by decide) (by decide)
      (Store.Put_generated _ _ (by decide)) (by decide)
  exact ⟨h1, h2, ev, h4, ht, hp, ha⟩

/-! ## Path lemmas -/

theorem trimLeft_replicate_append (n : Nat) (l : List Char)
    (h : ∀ c, l.head? = some c → c ≠ '/') :
    trimLeft ['/'] (List.replicate n '/' ++ l) = l := by
  induction n with
  | zero =>
    cases l with
    | nil => rfl
    | cons c t =>
      have hc : c ≠ '/' := h c rfl
      simp [trimLeft, List.dropWhile, hc]
  | succ n ih =>
    simpa [trimLeft, List.replicate_succ, List.dropWhile] using ih

/-- A path made of one fragment between slashes is trimmed and split into that fragment. -/
theorem Split_Trim_single (seg : String) (a b : Nat) (hne : seg ≠ "")
    (hns : '/' ∉ seg.data) :
    Split (Trim (String.mk (List.replicate a '/' ++ seg.data ++ List.replicate b '/')) "/") '/'
      = [seg] := by
  have hdata : seg.data ≠ [] := fun h => hne (by cases seg; simp_all)
  have h1 : trimLeft ['/'] (List.replicate a '/' ++ (seg.data ++ List.replicate b '/'))
      = seg.data ++ List.replicate b '/' := by
    apply trimLeft_replicate_append
    intro c hc
    cases hd : seg.data with
    | nil => exact absurd hd hdata
    | cons x t =>
      rw [hd] at hc hns
      simp at hc
      subst hc
      intro hx
      exact hns (by simp [hx])
  have h2 : trimRight ['/'] (seg.data ++ List.replicate b '/') = seg.data := by
    unfold trimRight
    rw [List.reverse_append, List.reverse_replicate, trimLeft_replicate_append,
      List.reverse_reverse]
    intro c hc
    have hmem : c ∈ seg.data.reverse := List.mem_of_mem_head? hc
    intro hx
    exact hns (by simpa [hx] using hmem)
  have h3 : Trim (String.mk (List.replicate a '/' ++ seg.data ++ List.replicate b '/')) "/"
      = seg := by
    show String.mk (trimRight ['/'] (trimLeft ['/']
      (List.replicate a '/' ++ seg.data ++ List.replicate b '/'))) = seg
    rw [List.append_assoc, h1, h2]
  rw [h3]
  simp [Split, splitChars_of_not_mem _ hns]


/-- C10, as amended: a GET request whose path is one non-empty fragment between
any number of leading and trailing slashes is answered 302; the target is
`/` when the fragment is `events`, and otherwise what `http.Redirect` makes
of `/events/` followed by the fragment, which is that very url when the
fragment has only ASCII characters and its part before the first `?` is
neither `.` nor `..`; no datastore call is made and the store is
unchanged. -/
theorem eventRouter_get_single_segment (env : Env) (r : Request) (s : Store) (seg : String)
    (a b : Nat) (hm : r.Method = "GET") (hne : seg ≠ "") (hns : '/' ∉ seg.data)
    (hp : r.Path = String.mk (List.replicate a '/' ++ seg.data ++ List.replicate b '/')) :
    (eventRouter env r (State.init s)).w.status = some 302 ∧
    (eventRouter env r (State.init s)).w.Location =
      some (if seg = "events" then "/"
        else hexEscapeNonASCII (redirectURL ("/events/" ++ seg))) ∧
    ((∀ c ∈ seg.data, c.toNat < 128) →
      seg.data.takeWhile (fun c => c != '?') ≠ ['.'] →
      seg.data.takeWhile (fun c => c != '?') ≠ ['.', '.'] →
      (eventRouter env r (State.init s)).w.Location =
        some (if seg = "events" then "/" else "/events/" ++ seg)) ∧
    (eventRouter env r (State.init s)).ops = [] ∧
    (eventRouter env r (State.init s)).store = s := by
  have hroot : hexEscapeNonASCII (redirectURL "/") = "/" := by decide
  simp only [eventRouter, hp, Split_Trim_single seg a b hne hns, hm, if_true]
  by_cases hev : seg = "events"
  · simp only [hev, if_true]
    have hloc := (ResponseWriter.Redirect_Location_of_none (w := (State.init s).w) rfl
      "GET" "/" 302).trans (congrArg some hroot)
    exact ⟨ResponseWriter.Redirect_status_of_none rfl _ _ _, hloc, fun _ _ _ => hloc,
      rfl, rfl⟩
  · simp only [hev, if_false]
    have hloc := ResponseWriter.Redirect_Location_of_none (w := (State.init s).w) rfl
      "GET" ("/events/" ++ seg) 302
    exact ⟨ResponseWriter.Redirect_status_of_none rfl _ _ _, hloc,
      fun ha hd hdd => hloc.trans (congrArg some (redirect_events_eq seg hns ha hd hdd)),
      rfl, rfl⟩

/-- Witness of C10 as amended: `GET /foo` is redirected to `/events/foo`. -/
theorem eventRouter_get_single_segment_witness :
    (eventRouter sampleEnv (formRequest "GET" "/foo" []) (State.init emptyStore)).w.status
      = some 302 ∧
    (eventRouter sampleEnv (formRequest "GET" "/foo" []) (State.init emptyStore)).w.Location
      = some "/events/foo" ∧
    (eventRouter sampleEnv (formRequest "GET" "/foo" []) (State.init emptyStore)).ops = [] := by
  have h := eventRouter_get_single_segment sampleEnv (formRequest "GET" "/foo" []) emptyStore
    "foo" 1 0 rfl (by decide) (by decide) (by decide)
  exact ⟨h.1, h.2.2.1 (by decide) (by decide) (by decide), h.2.2.2.1⟩

/-- Counterexample to C10 as stated: `GET /é` has the one fragment `é` and is
redirected to `/events/%c3%a9`, not to `/events/é`; `GET /..` has the one
fragment `..` and is redirected to `/`, not to `/events/..`. -/
theorem eventRouter_get_segment_target_normalised :
    Split (Trim "/é" "/") '/' = ["é"] ∧
    (eventRouter sampleEnv (formRequest "GET" "/é" []) (State.init emptyStore)).w.Location
      = some "/events/%c3%a9" ∧
    (eventRouter sampleEnv (formRequest "GET" "/é" []) (State.init emptyStore)).w.Location
      ≠ some ("/events/" ++ "é") ∧
    Split (Trim "/.." "/") '/' = [".."] ∧
    (eventRouter sampleEnv (formRequest "GET" "/.." []) (State.init emptyStore)).w.Location
      = some "/" ∧
    (eventRouter sampleEnv (formRequest "GET" "/.." []) (State.init emptyStore)).w.Location
      ≠ some ("/events/" ++ "..") := by
  decide

/-- C1, at a failing input: on the empty store, `newAttendee` for the unknown id
`party` answers 404 and then writes: the store afterwards holds a record at
the key of `party`, with the one attendee. -/
theorem newAttendee_unknown_id_writes_record :
    emptyStore.ents (resolveKey sampleEnv "party") = none ∧
    (newAttendee sampleEnv
      (formRequest "POST" "/events/party/attendees" [("attendee", ["Alice"])])
      "party" (State.init emptyStore)).w.status = some 404 ∧
    (newAttendee sampleEnv
      (formRequest "POST" "/events/party/attendees" [("attendee", ["Alice"])])
      "party" (State.init emptyStore)).writes = 1 ∧
    (newAttendee sampleEnv
      (formRequest "POST" "/events/party/attendees" [("attendee", ["Alice"])])
      "party" (State.init emptyStore)).store.ents (resolveKey sampleEnv "party") =
      some { Event.zero with Id := "party", Attendees := ["Alice"] } := by
  decide

/-- C2, at a failing input: on the empty store, `getEvent` for the unknown id
`party` answers 404 and then executes the event template, on the zero
event with the id filled in; the body holds the message and the rendering. -/
theorem getEvent_unknown_id_executes_template :
    emptyStore.ents (resolveKey sampleEnv "party") = none ∧
    (getEvent sampleEnv (formRequest "GET" "/events/party" []) "party"
      (State.init emptyStore)).w.status = some 404 ∧
    (getEvent sampleEnv (formRequest "GET" "/events/party" []) "party"
      (State.init emptyStore)).executed =
      [("event.html", { Event.zero with Id := "party" })] ∧
    (getEvent sampleEnv (formRequest "GET" "/events/party" []) "party"
      (State.init emptyStore)).w.body =
      [.text "Not Found\n", .template "event.html" { Event.zero with Id := "party" }] := by
  decide

/-- C3, at a failing input: on the empty store, `newEvent` with the reserved id
and all six required fields answers 409 and then writes the event at the
key of the reserved id. -/
theorem newEvent_reserved_id_writes_record :
    (fullForm "events").Get "id" = "events" ∧
    emptyStore.ents (NewKey "Event" "events" 0) = none ∧
    (newEvent sampleEnv (formRequest "POST" "/events" (fullForm "events"))
      (State.init emptyStore)).w.status = some 409 ∧
    (newEvent sampleEnv (formRequest "POST" "/events" (fullForm "events"))
      (State.init emptyStore)).writes = 1 ∧
    (newEvent sampleEnv (formRequest "POST" "/events" (fullForm "events"))
      (State.init emptyStore)).store.ents (NewKey "Event" "events" 0) =
      some (sampleEvent "events") := by
  decide

/-- C9, at a failing input: the path `/` has depth 0, and `eventRouter` answers a
GET on it with a 302 redirect to `/events/`, not with 404; a GET on
`/events/` is in turn redirected to `/`. -/
theorem eventRouter_root_path_redirects :
    depth "/" = 0 ∧
    (eventRouter sampleEnv (formRequest "GET" "/" []) (State.init emptyStore)).w.status =
      some 302 ∧
    (eventRouter sampleEnv (formRequest "GET" "/" []) (State.init emptyStore)).w.Location =
      some "/events/" ∧
    (eventRouter sampleEnv (formRequest "GET" "/events/" []) (State.init emptyStore)).w.Location
      = some "/" := by
  decide

/-! ## Paths of depth four or more -/

theorem filter_splitChars_replicate (k : Nat) :
    (splitChars '/' (List.replicate k '/')).filter (fun f => !f.isEmpty) = [] := by
  induction k with
  | zero => rfl
  | succ k ih => simpa [List.replicate_succ, splitChars] using ih

theorem filter_splitChars_append_replicate (x : List Char) (k : Nat) :
    (splitChars '/' (x ++ List.replicate k '/')).filter (fun f => !f.isEmpty) =
      (splitChars '/' x).filter (fun f => !f.isEmpty) := by
  cases k with
  | zero => simp
  | succ k =>
    rw [List.replicate_succ, splitChars_append_sep, List.filter_append,
      filter_splitChars_replicate, List.append_nil]

theorem filter_splitChars_trimLeft (l : List Char) :
    (splitChars '/' (trimLeft ['/'] l)).filter (fun f => !f.isEmpty) =
      (splitChars '/' l).filter (fun f => !f.isEmpty) := by
  induction l with
  | nil => rfl
  | cons c t ih =>
    by_cases hc : c = '/'
    · subst hc
      simpa [trimLeft, List.dropWhile, splitChars] using ih
    · simp [trimLeft, List.dropWhile, hc]

theorem trimLeft_eq_drop (l : List Char) :
    ∃ k, l = List.replicate k '/' ++ trimLeft ['/'] l := by
  induction l with
  | nil => exact ⟨0, rfl⟩
  | cons c t ih =>
    by_cases hc : c = '/'
    · subst hc
      obtain ⟨k, hk⟩ := ih
      refine ⟨k + 1, ?_⟩
      have : trimLeft ['/'] ('/' :: t) = trimLeft ['/'] t := by
        simp [trimLeft, List.dropWhile]
      rw [this, List.replicate_succ, List.cons_append, ← hk]
    · refine ⟨0, ?_⟩
      simp [trimLeft, List.dropWhile, hc]

theorem filter_splitChars_trimRight (l : List Char) :
    (splitChars '/' (trimRight ['/'] l)).filter (fun f => !f.isEmpty) =
      (splitChars '/' l).filter (fun f => !f.isEmpty) := by
  obtain ⟨k, hk⟩ := trimLeft_eq_drop l.reverse
  have hl : l = trimRight ['/'] l ++ List.replicate k '/' := by
    have := congrArg List.reverse hk
    simpa [trimRight] using this
  conv_rhs => rw [hl]
  rw [filter_splitChars_append_replicate]

/-- The depth of a path bounds the number of fragments the router sees. -/
theorem depth_le_fragments (path : String) :
    depth path ≤ (Split (Trim path "/") '/').length := by
  have h : (Split (Trim path "/") '/').length =
      (splitChars '/' (trimRight ['/'] (trimLeft ['/'] path.data))).length := by
    simp [Split, Trim]
  rw [h, depth, ← filter_splitChars_trimLeft, ← filter_splitChars_trimRight]
  exact List.length_filter_le _ _

/-- The part of C9 that holds: a path of depth 4 or more is answered 404, whatever
the method, with no datastore call, no template execution and no change
of the store. -/
theorem eventRouter_depth_ge_four (env : Env) (r : Request) (s : Store)
    (h : 4 ≤ depth r.Path) :
    eventRouter env r (State.init s) = (State.init s).Error "Not Found" 404 := by
  have hlen := le_trans h (depth_le_fragments r.Path)
  unfold eventRouter
  simp only
  rcases hfr : Split (Trim r.Path "/") '/' with _ | ⟨a, _ | ⟨b, _ | ⟨c, _ | ⟨d, t⟩⟩⟩⟩
  all_goals first | rfl | (rw [hfr] at hlen; simp at hlen)

end Dsbj
